import Mathlib

/- Shallow embedding of the repository state reconciliation core of Sourcepan,
a Gtk Git client written in Rust.  Object ids are content ids modelled as
naturals (0 models the zero oid), trees and the index are association lists
from repository-relative paths to blob content ids, and the git2 diff
primitives are modelled as computable functions on those trees.  Presenter
methods that can panic (expect, unwrap, bare Vec indexing) are modelled as
Option-returning functions where the value none stands for the panic. -/

namespace Sourcepan

/-- Content-addressed object id; 0 models git2::Oid::zero(). -/
abbrev Oid := Nat

/-- git2::Delta: the change kind of one file within a diff. -/
inductive Delta
  | added
  | deleted
  | modified
  | renamed
  | copied
  | typechange
  | unmodified
  deriving DecidableEq

/-- A tree, the index, or the working directory, as a finite map from
repository-relative paths to blob content ids. -/
abbrev GitTree := List (String × Oid)

/-- Look up the blob id recorded for a path. -/
def lookupPath (t : GitTree) (p : String) : Option Oid :=
  (t.find? (fun e => e.1 == p)).map (fun e => e.2)

/-- Record a blob id for a path, replacing an existing entry for that path. -/
def setPath (t : GitTree) (p : String) (c : Oid) : GitTree :=
  if t.any (fun e => e.1 == p) then
    t.map (fun e => if e.1 == p then (p, c) else e)
  else
    t ++ [(p, c)]

/-- One delta of a git2::Diff: the new-side blob content id (the zero oid for
a deletion), the new-side path, and the change kind, exactly the fields the
presenters read (d.new_file().id(), d.new_file().path(), d.status()). -/
structure DiffDelta where
  newId : Oid
  path : String
  status : Delta
  deriving DecidableEq

/-- git2 tree-to-tree diff: deletions and modifications in the order of the
old tree, followed by additions in the order of the new tree.  For a deletion
the new-side id is the zero oid. -/
def diffTreeToTree (oldTree newTree : GitTree) : List DiffDelta :=
  (oldTree.filterMap (fun e =>
    match lookupPath newTree e.1 with
    | none => some ⟨0, e.1, Delta.deleted⟩
    | some nid => if nid == e.2 then none else some ⟨nid, e.1, Delta.modified⟩))
  ++ (newTree.filterMap (fun e =>
    match lookupPath oldTree e.1 with
    | none => some ⟨e.2, e.1, Delta.added⟩
    | some _ => none))

/-- Diff::find_similar(None): similarity and rename detection run on a diff
in place.  On the abstract trees of this model the detection finds nothing,
so it is the identity transformation; it is kept as a definition to mirror
every call site. -/
def findSimilar (d : List DiffDelta) : List DiffDelta :=
  d

/-- A commit object of the repository store: id, parent ids, tree, and the
fields consumed by the display helpers of HumanCommitExt. -/
structure CommitObj where
  id : Oid
  parentIds : List Oid
  tree : GitTree
  summary : Option String
  authorName : Option String
  authorEmail : Option String
  timeSeconds : Int
  offsetMinutes : Int
  deriving DecidableEq

/-- Repository::find_commit over a store of commit objects. -/
def findCommit (store : List CommitObj) (id : Oid) : Option CommitObj :=
  store.find? (fun c => c.id == id)

/-- Hex rendering of an object id, modelling the Display of git2::Oid
(leading zeros are elided in this model; no property depends on padding). -/
def oidStr (id : Oid) : String :=
  String.mk (Nat.toDigits 16 id)

/-- Display of a commit timestamp: the seconds since the epoch together with
the original UTC offset in minutes, preserved rather than converted.  The
chrono formatting details are abstracted into this function; no property
below depends on the concrete format. -/
def humanDate (seconds offsetMinutes : Int) : String :=
  toString seconds ++ "@" ++ toString offsetMinutes

/-- HumanCommitExt::full_summary_str: the raw summary with the fallback. -/
def CommitObj.full_summary_str (c : CommitObj) : String :=
  c.summary.getD "<No summary found>"

/-- HumanCommitExt::summary_str: the summary truncated to 80 characters. -/
def CommitObj.summary_str (c : CommitObj) : String :=
  c.full_summary_str.take 80

/-- HumanCommitExt::short_id_str: the first 7 characters of the id string. -/
def CommitObj.short_id_str (c : CommitObj) : String :=
  (oidStr c.id).take 7

/-- HumanCommitExt::author_str: name and email with fallbacks. -/
def CommitObj.author_str (c : CommitObj) : String :=
  (c.authorName.getD "Unknown") ++ " <" ++ (c.authorEmail.getD "unknown") ++ ">"

/-- HumanCommitExt::date: the commit timestamp with its offset. -/
def CommitObj.date_str (c : CommitObj) : String :=
  humanDate c.timeSeconds c.offsetMinutes

/-- The sentinel marker text UNCOMMITTED_STR of src/ui/main/mod.rs. -/
def UNCOMMITTED_STR : String := "<b>Uncommitted changes</b>"

/-- CommitInfo as defined in src/ui/main/mod.rs. -/
structure CommitInfo where
  id : Oid
  summary : String
  short_id : String
  author : String
  commit_date : String
  branch_heads : List String
  deriving DecidableEq

/-- CommitInfo::uncommitted_sentinel. -/
def CommitInfo.uncommitted_sentinel : CommitInfo :=
  { id := 0, summary := UNCOMMITTED_STR, short_id := "*", author := "*",
    commit_date := "*", branch_heads := [] }

/-- CommitInfo::is_sentinel: zero id and the sentinel marker text. -/
def CommitInfo.is_sentinel (i : CommitInfo) : Bool :=
  i.id == 0 && i.summary == UNCOMMITTED_STR

/-- The CommitInfo built for one walked commit in
HistoryPresenter::update_commit_history: display fields from HumanCommitExt
and the names of every branch whose tip commit id equals this commit id. -/
def mkCommitInfo (branches : List (String × Oid)) (c : CommitObj) : CommitInfo :=
  { id := c.id,
    summary := c.summary_str,
    short_id := c.short_id_str,
    author := c.author_str,
    commit_date := c.date_str,
    branch_heads := (branches.filter (fun b => b.2 == c.id)).map (fun b => b.1) }

/-- TreeItem as defined in src/ui/main/branch.rs: the new-side content id,
the path and the change kind of one change record. -/
structure TreeItem where
  id : Oid
  path : String
  delta : Delta
  deriving DecidableEq

/-- The map from one diff delta to a TreeItem used by BranchPresenter. -/
def mkTreeItem (d : DiffDelta) : TreeItem :=
  ⟨d.newId, d.path, d.status⟩

/-- The mutable repository content read by the sentinel diff: the HEAD tree,
the index and the working directory. -/
structure RepoState where
  headTree : GitTree
  index : GitTree
  workdir : GitTree
  deriving DecidableEq

/-- index_deltas of BranchPresenter::on_uncommitted_changes_selected:
diff_tree_to_index against the HEAD tree, find_similar, then the TreeItem
map. -/
def indexDeltas (st : RepoState) : List TreeItem :=
  (findSimilar (diffTreeToTree st.headTree st.index)).map mkTreeItem

/-- workdir_deltas of BranchPresenter::on_uncommitted_changes_selected:
diff_tree_to_workdir_with_index against the HEAD tree (modelled as the diff
from the HEAD tree to the working directory, untracked files included),
find_similar, the TreeItem map, and the de-duplication filter: a delta whose
new-side content id equals the id of some index delta is dropped. -/
def workdirDeltas (st : RepoState) : List TreeItem :=
  ((findSimilar (diffTreeToTree st.headTree st.workdir)).map mkTreeItem).filter
    (fun x => !((indexDeltas st).any (fun y => x.id == y.id)))

/-- BranchPresenter::on_uncommitted_changes_selected: the staged
(index vs HEAD) and unstaged (working directory) record lists pushed to the
view, in that order. -/
def onUncommittedChangesSelected (st : RepoState) : List TreeItem × List TreeItem :=
  (indexDeltas st, workdirDeltas st)

/-- commit.parents().collect(): the git2 Parents iterator loads every parent
commit and unwraps each load, so one unresolvable parent id panics and
aborts the collection (none models the panic). -/
def collectParents (store : List CommitObj) : List Oid → Option (List CommitObj)
  | [] => some []
  | pid :: rest =>
    match findCommit store pid with
    | none => none
    | some p => (collectParents store rest).map (fun l => p :: l)

/-- BranchPresenter::on_commit_selected: resolve the commit of the selected
CommitInfo id (none models the expect panic), collect the parent commits
(none models the panic of the Parents iterator on an unresolvable parent),
take the tree of the first parent when there is one, diff it (or the empty
tree) against the commit tree, find_similar, and push the records as the
staged list together with an empty unstaged list. -/
def onCommitSelected (store : List CommitObj) (infoId : Oid) :
    Option (List TreeItem × List TreeItem) :=
  match findCommit store infoId with
  | none => none
  | some commit =>
    match collectParents store commit.parentIds with
    | none => none
    | some parentCommits =>
      let maybeParent := parentCommits.head?.map (fun c => c.tree)
      let diff := findSimilar (diffTreeToTree (maybeParent.getD []) commit.tree)
      some (diff.map mkTreeItem, [])

/-- TreeItem as defined in src/ui/main/mod.rs: the same record with the
is_selected flag used by the file status lists. -/
structure TreeItemWithSelection where
  id : Oid
  path : String
  delta : Delta
  is_selected : Bool
  deriving DecidableEq

/-- Modelled from the spec: the current revision of
BranchPresenter::on_commit_selected, the one matching the TreeItem of
src/ui/main/mod.rs (with its is_selected flag) and the call sites in
src/ui/main/filestatus.rs, is not present under src, where branch.rs is an
older revision whose TreeItem has no selection flag.  Per the spec, the
commit diff is computed as in onCommitSelected and every resulting record is
marked selected, there being no partial-staging concept for historical
commits. -/
def onCommitSelectedCurrent (store : List CommitObj) (infoId : Oid) :
    Option (List TreeItemWithSelection × List TreeItemWithSelection) :=
  match findCommit store infoId with
  | none => none
  | some commit =>
    let parentCommits := commit.parentIds.filterMap (findCommit store)
    let maybeParent := parentCommits.head?.map (fun c => c.tree)
    let diff := findSimilar (diffTreeToTree (maybeParent.getD []) commit.tree)
    some (diff.map (fun d => ⟨d.newId, d.path, d.status, true⟩), [])

/-- One entry of Repository::statuses(None): only the ignored bit of the
status is consumed by the history presenter. -/
structure StatusEntry where
  path : String
  isIgnored : Bool
  deriving DecidableEq

/-- HistoryPresenter::has_uncommitted_changes: the count of status entries
whose status is not ignored is positive. -/
def hasUncommittedChanges (statuses : List StatusEntry) : Bool :=
  decide (0 < (statuses.filter (fun x => !x.isIgnored)).length)

/-- The loop body of HistoryPresenter::update_commit_history over the
revwalk: an item that is an error is skipped with continue; for an ok
revision id, find_commit is called under expect, so a missing commit object
panics and aborts the whole computation (modelled as none). -/
def walkInfos (store : List CommitObj) (branches : List (String × Oid)) :
    List (Except String Oid) → Option (List CommitInfo)
  | [] => some []
  | Except.error _ :: rest => walkInfos store branches rest
  | Except.ok rid :: rest =>
    match findCommit store rid with
    | none => none
    | some c => (walkInfos store branches rest).map (fun l => mkCommitInfo branches c :: l)

/-- HistoryPresenter::update_commit_history: prepend the uncommitted-changes
sentinel exactly when has_uncommitted_changes holds, then append one
CommitInfo per successfully walked revision.  The seed-set construction of
the revwalk is abstracted into the revs argument, the sequence the revwalk
yields. -/
def updateCommitHistory (statuses : List StatusEntry) (branches : List (String × Oid))
    (store : List CommitObj) (revs : List (Except String Oid)) : Option (List CommitInfo) :=
  (walkInfos store branches revs).map (fun infos =>
    (if hasUncommittedChanges statuses then [CommitInfo.uncommitted_sentinel] else []) ++ infos)

/-- A filesystem path as its list of components. -/
abbrev FsPath := List String

/-- notify::DebouncedEvent with paths as component lists. -/
inductive DebouncedEvent
  | noticeWrite (p : FsPath)
  | noticeRemove (p : FsPath)
  | create (p : FsPath)
  | write (p : FsPath)
  | chmod (p : FsPath)
  | remove (p : FsPath)
  | rename (oldPath newPath : FsPath)
  | rescan
  | error (maybePath : Option FsPath)

/-- The path extraction at the top of
HistoryPresenter::on_path_change_event: a rename keeps only the destination
path, a rescan carries no path, an error carries an optional path. -/
def eventPath : DebouncedEvent → Option FsPath
  | DebouncedEvent.noticeWrite p => some p
  | DebouncedEvent.noticeRemove p => some p
  | DebouncedEvent.create p => some p
  | DebouncedEvent.write p => some p
  | DebouncedEvent.chmod p => some p
  | DebouncedEvent.remove p => some p
  | DebouncedEvent.rename _ newPath => some newPath
  | DebouncedEvent.rescan => none
  | DebouncedEvent.error mp => mp

/-- The relevance filter of HistoryPresenter::on_path_change_event: the path
ends with the index file, or ends with the ref of the currently selected
branch, or has no component equal to the .git metadata directory.
Path::ends_with compares whole trailing components, modelled by
List.isSuffixOf on component lists. -/
def pathIsRelevant (p : FsPath) (branch : FsPath) : Bool :=
  List.isSuffixOf ["index"] p || List.isSuffixOf branch p || !(p.contains ".git")

/-- Whether HistoryPresenter::on_path_change_event reaches the history
recompute for a given event: an event without a path returns early, all
other events are filtered through pathIsRelevant. -/
def triggersRecompute (e : DebouncedEvent) (branch : FsPath) : Bool :=
  match eventPath e with
  | none => false
  | some p => pathIsRelevant p branch

/-- The diff recomputation performed after an item selection. -/
inductive DiffAction
  | noDiff
  | sentinelDiff
  | commitDiff (id : Oid)
  deriving DecidableEq

/-- HistoryPresenter::on_item_selected: index into the commit list (a bare
Vec index, so none models the out-of-range panic); the sentinel row derives
the sentinel diff and any other row derives the commit diff of the row. -/
def onItemSelected (commits : List CommitInfo) (index : Nat) : Option DiffAction :=
  match commits[index]? with
  | none => none
  | some info =>
    some (if info.is_sentinel then DiffAction.sentinelDiff else DiffAction.commitDiff info.id)

/-- The tail of HistoryPresenter::on_path_change_event: when the event is
relevant, update_commit_history replaces the history (newHistory is the
result that recomputation produces) and, when a row is selected, the diff
for that row of the new history is re-derived through on_item_selected;
when the event is not relevant nothing changes. -/
def onPathChangeEvent (e : DebouncedEvent) (branch : FsPath)
    (oldHistory newHistory : List CommitInfo) (selectedRow : Option Nat) :
    Option (List CommitInfo × DiffAction) :=
  if triggersRecompute e branch then
    match selectedRow with
    | none => some (newHistory, DiffAction.noDiff)
    | some idx => (onItemSelected newHistory idx).map (fun a => (newHistory, a))
  else
    some (oldHistory, DiffAction.noDiff)

/-- Index::add_path followed by Index::write: stage the current working-tree
content of the path into the index; none models the unwrap panic when the
path has no working-tree content to add. -/
def addPath (index workdir : GitTree) (p : String) : Option GitTree :=
  match lookupPath workdir p with
  | none => none
  | some c => some (setPath index p c)

/-- The (staged, unstaged) snapshot held behind BranchPresenter::deltas(),
that is, the result of the last sentinel diff. -/
def deltasOf (st : RepoState) : List TreeItem × List TreeItem :=
  onUncommittedChangesSelected st

/-- FileStatusPresenter::on_toggle_unstaged: read the unstaged record at the
row index out of the snapshot (a bare Vec index, so none models the
out-of-bounds panic), add its path to the repository index and persist the
index; the sentinel diff is then recomputed from the new state by the
caller. -/
def onToggleUnstaged (st : RepoState) (snapshot : List TreeItem × List TreeItem)
    (index : Nat) : Option RepoState :=
  match snapshot.2[index]? with
  | none => none
  | some item =>
    match addPath st.index st.workdir item.path with
    | none => none
    | some newIndex => some { st with index := newIndex }

/-- FileStatusPresenter::on_toggle_staged: the body of the method is empty,
so toggling a staged row changes nothing. -/
def onToggleStaged (st : RepoState) (index : Nat) : RepoState :=
  st

/-- The three diff contexts of src/ui/main/diff.rs. -/
inductive DiffContext
  | committed
  | staged
  | working
  deriving DecidableEq

/-- The state the hunk presenter drives the primary button into, one value
per view method it can invoke. -/
inductive ChunkAction
  | revertSelectedLines
  | unstageSelectedLines
  | stageSelectedLines
  | revertAllLines
  | stageAllLines
  | unstageAllLines
  | incontiguousSelection
  deriving DecidableEq

/-- lines.windows(2).all(s[1] == s[0] + 1): every selected row index equals
the previous plus one; the adjacent pairs of the slice are modelled by
zipping the list with its tail. -/
def isContiguousRows (lines : List Nat) : Bool :=
  (lines.zip lines.tail).all (fun s => s.2 == s.1 + 1)

/-- DiffChunkPresenter::handle_on_selected_lines: a non-empty contiguous
selection enables the Selected Lines action of the context, an empty
selection enables the All Lines action, anything else shows the
incontiguous-selection state. -/
def handleOnSelectedLines (context : DiffContext) (lines : List Nat) : ChunkAction :=
  let hasSelection : Bool := decide (0 < lines.length)
  let isContiguous : Bool := isContiguousRows lines
  match context with
  | DiffContext.committed =>
    if hasSelection && isContiguous then ChunkAction.revertSelectedLines
    else if !hasSelection then ChunkAction.revertAllLines
    else ChunkAction.incontiguousSelection
  | DiffContext.staged =>
    if hasSelection && isContiguous then ChunkAction.unstageSelectedLines
    else if !hasSelection then ChunkAction.unstageAllLines
    else ChunkAction.incontiguousSelection
  | DiffContext.working =>
    if hasSelection && isContiguous then ChunkAction.stageSelectedLines
    else if !hasSelection then ChunkAction.stageAllLines
    else ChunkAction.incontiguousSelection

/-- The label each DiffChunkView method writes onto the primary button. -/
def actionLabel : ChunkAction → String
  | ChunkAction.revertSelectedLines => "Revert Selected Lines"
  | ChunkAction.unstageSelectedLines => "Unstage Selected Lines"
  | ChunkAction.stageSelectedLines => "Stage Selected Lines"
  | ChunkAction.revertAllLines => "Revert All Lines"
  | ChunkAction.stageAllLines => "Stage All Lines"
  | ChunkAction.unstageAllLines => "Unstage All Lines"
  | ChunkAction.incontiguousSelection => "Incontiguous selection"

/-- The sensitivity each DiffChunkView method sets on the primary button:
only the incontiguous-selection state disables it. -/
def actionSensitive : ChunkAction → Bool
  | ChunkAction.incontiguousSelection => false
  | _ => true

/-- The Selected Lines action belonging to a diff context. -/
def selectedLinesAction : DiffContext → ChunkAction
  | DiffContext.committed => ChunkAction.revertSelectedLines
  | DiffContext.staged => ChunkAction.unstageSelectedLines
  | DiffContext.working => ChunkAction.stageSelectedLines

/-- The All Lines action belonging to a diff context. -/
def allLinesAction : DiffContext → ChunkAction
  | DiffContext.committed => ChunkAction.revertAllLines
  | DiffContext.staged => ChunkAction.unstageAllLines
  | DiffContext.working => ChunkAction.stageAllLines

/-- A small concrete root commit used by the closed instances below. -/
def exCommit : CommitObj :=
  { id := 1, parentIds := [], tree := [("a", 1)], summary := some "initial",
    authorName := some "ada", authorEmail := some "ada@example.org",
    timeSeconds := 0, offsetMinutes := 0 }

/-- A concrete child commit of exCommit adding one file. -/
def exCommit2 : CommitObj :=
  { id := 2, parentIds := [1], tree := [("a", 1), ("b", 7)], summary := some "second",
    authorName := some "ada", authorEmail := some "ada@example.org",
    timeSeconds := 10, offsetMinutes := 60 }

/-- A concrete two-commit store. -/
def exStore : List CommitObj := [exCommit, exCommit2]

/-- The CommitInfo row built for exCommit (a non-sentinel row). -/
def exInfo : CommitInfo := mkCommitInfo [] exCommit

/-- A concrete repository state: one tracked file a, modified in the working
directory and not staged. -/
def exState : RepoState :=
  { headTree := [("a", 1)], index := [("a", 1)], workdir := [("a", 2)] }

/-- The repository state after staging the working-tree change of file a. -/
def exStateStaged : RepoState :=
  { headTree := [("a", 1)], index := [("a", 2)], workdir := [("a", 2)] }

/-- C1: for every sentinel (uncommitted-changes) diff computation, the
staged and the unstaged record lists have disjoint content ids: a
working-directory delta whose new-side content id equals the id of some
staged record is excluded by the de-duplication filter, so no id occurs in
both lists. -/
theorem sentinel_diff_staged_unstaged_ids_disjoint (st : RepoState) :
    ∀ a ∈ (onUncommittedChangesSelected st).1.map TreeItem.id,
      a ∉ (onUncommittedChangesSelected st).2.map TreeItem.id := by
  intro a ha hb
  simp only [onUncommittedChangesSelected, List.mem_map] at ha hb
  obtain ⟨x, hx, rfl⟩ := ha
  obtain ⟨y, hy, hxy⟩ := hb
  rw [workdirDeltas, List.mem_filter] at hy
  have h2 := hy.2
  rw [Bool.not_eq_true', List.any_eq_false] at h2
  exact h2 x hx (beq_iff_eq.mpr hxy)

/-- Closed instance of C1: with file a staged as content 2, the unstaged
list of the sentinel diff no longer carries content id 2. -/
theorem sentinel_diff_staged_unstaged_ids_disjoint_witness :
    (2 : Oid) ∉ (onUncommittedChangesSelected
      ⟨[("a", 1)], [("a", 2)], [("a", 2)]⟩).2.map TreeItem.id :=
  sentinel_diff_staged_unstaged_ids_disjoint
    ⟨[("a", 1)], [("a", 2)], [("a", 2)]⟩ 2 (by decide)

/-- C3: a debounced path-change event carrying a path p triggers a history
recompute exactly when p ends with the index file, or ends with the ref of
the currently selected branch, or no component of p equals the .git
metadata directory; in particular an event for a file under .git that is
neither of the two special paths produces no recompute. -/
theorem path_change_triggers_iff_relevant (e : DebouncedEvent) (branch p : FsPath)
    (h : eventPath e = some p) :
    (triggersRecompute e branch = true ↔
      (["index"] <:+ p ∨ branch <:+ p ∨ ".git" ∉ p))
    ∧ ((".git" ∈ p ∧ ¬ ["index"] <:+ p ∧ ¬ branch <:+ p) →
      triggersRecompute e branch = false) := by
  have hiff : triggersRecompute e branch = pathIsRelevant p branch := by
    unfold triggersRecompute
    rw [h]
  constructor
  · rw [hiff, pathIsRelevant]
    simp [List.isSuffixOf_iff_suffix, List.elem_iff, or_assoc]
  · rintro ⟨hg, h1, h2⟩
    rw [hiff, pathIsRelevant]
    simp [Bool.eq_false_iff, List.isSuffixOf_iff_suffix, List.contains, List.elem_iff,
      h1, h2, hg]

/-- Closed instance of C3: a write under .git/objects with master selected
is dropped by the filter. -/
theorem path_change_triggers_iff_relevant_witness :
    (triggersRecompute (DebouncedEvent.write [".git", "objects", "ab"]) ["master"] = true ↔
      (["index"] <:+ [".git", "objects", "ab"] ∨ ["master"] <:+ [".git", "objects", "ab"] ∨
        ".git" ∉ [".git", "objects", "ab"]))
    ∧ ((".git" ∈ [".git", "objects", "ab"] ∧ ¬ ["index"] <:+ [".git", "objects", "ab"] ∧
        ¬ ["master"] <:+ [".git", "objects", "ab"]) →
      triggersRecompute (DebouncedEvent.write [".git", "objects", "ab"]) ["master"] = false) :=
  path_change_triggers_iff_relevant (DebouncedEvent.write [".git", "objects", "ab"])
    ["master"] [".git", "objects", "ab"] (by rfl)

/-- The boolean adjacency check of the hunk presenter agrees with the
chain predicate stating that every index equals the previous plus one. -/
theorem isContiguousRows_iff : ∀ (l : List Nat),
    isContiguousRows l = true ↔ l.Chain' (fun a b => b = a + 1)
  | [] => by simp [isContiguousRows]
  | [a] => by simp [isContiguousRows]
  | a :: b :: r => by
    have ih := isContiguousRows_iff (b :: r)
    rw [List.chain'_cons, ← ih]
    simp [isContiguousRows]

/-- C10: for every list of selected line-row indices, the hunk presenter
reaches exactly one of three states: a non-empty strictly consecutive
selection enables the Selected Lines action of the context, an empty
selection enables the All Lines action, and anything else disables the
button with the incontiguous-selection indication. -/
theorem hunk_selection_three_state (context : DiffContext) (lines : List Nat) :
    (lines ≠ [] ∧ lines.Chain' (fun a b => b = a + 1) →
      handleOnSelectedLines context lines = selectedLinesAction context ∧
      actionSensitive (handleOnSelectedLines context lines) = true)
    ∧ (lines = [] →
      handleOnSelectedLines context lines = allLinesAction context ∧
      actionSensitive (handleOnSelectedLines context lines) = true)
    ∧ (lines ≠ [] ∧ ¬ lines.Chain' (fun a b => b = a + 1) →
      handleOnSelectedLines context lines = ChunkAction.incontiguousSelection ∧
      actionSensitive (handleOnSelectedLines context lines) = false) := by
  refine ⟨?_, ?_, ?_⟩
  · rintro ⟨hne, hch⟩
    have hsel : decide (0 < lines.length) = true :=
      decide_eq_true (List.length_pos.mpr hne)
    have hcon : isContiguousRows lines = true := (isContiguousRows_iff lines).mpr hch
    cases context <;>
      simp [handleOnSelectedLines, hsel, hcon, selectedLinesAction, actionSensitive]
  · rintro rfl
    cases context <;>
      simp [handleOnSelectedLines, allLinesAction, actionSensitive, isContiguousRows]
  · rintro ⟨hne, hnch⟩
    have hsel : decide (0 < lines.length) = true :=
      decide_eq_true (List.length_pos.mpr hne)
    have hcon : isContiguousRows lines = false :=
      Bool.eq_false_iff.mpr (fun hx => hnch ((isContiguousRows_iff lines).mp hx))
    cases context <;>
      simp [handleOnSelectedLines, hsel, hcon, actionSensitive]

/-- Closed instance of C10: the consecutive selection of rows 3 and 4 in a
working-directory hunk enables the Stage Selected Lines action. -/
theorem hunk_selection_three_state_witness :
    handleOnSelectedLines DiffContext.working [3, 4] = selectedLinesAction DiffContext.working ∧
    actionSensitive (handleOnSelectedLines DiffContext.working [3, 4]) = true :=
  (hunk_selection_three_state DiffContext.working [3, 4]).1
    ⟨by decide, List.chain'_pair.mpr (by decide)⟩

set_option maxRecDepth 16000 in
/-- C4 counterexample: on a relevant path-change signal with a commit row
selected, and with that commit still present in the recomputed history, the
presenter re-runs on_item_selected, which re-derives the diff of that
commit; the diff is not left untouched as the claim states. -/
theorem commit_selection_diff_recomputed_on_signal :
    exInfo.is_sentinel = false
    ∧ exInfo ∈ [exInfo]
    ∧ onPathChangeEvent (DebouncedEvent.write ["x.txt"]) ["master"] [exInfo] [exInfo] (some 0)
      = some ([exInfo], DiffAction.commitDiff exInfo.id)
    ∧ DiffAction.commitDiff exInfo.id ≠ DiffAction.noDiff := by
  refine ⟨by decide, by decide, by decide, by decide⟩

/-- C4 amended: after a relevant Change Watcher signal the history is
recomputed and, whenever a row is selected and in range, the diff of the
current occupant of that row in the new history is re-derived: the sentinel
row re-derives the sentinel diff and a commit row re-derives the diff of
that commit (committed diffs are recomputed too, not left untouched). -/
theorem path_change_rederives_selected_row_diff
    (e : DebouncedEvent) (branch : FsPath) (oldHistory newHistory : List CommitInfo)
    (idx : Nat) (info : CommitInfo)
    (ht : triggersRecompute e branch = true)
    (hidx : newHistory[idx]? = some info) :
    onPathChangeEvent e branch oldHistory newHistory (some idx)
      = some (newHistory,
        if info.is_sentinel then DiffAction.sentinelDiff else DiffAction.commitDiff info.id) := by
  simp [onPathChangeEvent, ht, onItemSelected, hidx]

set_option maxRecDepth 16000 in
/-- Closed instance of the amended C4: a working-tree write with the first
commit row selected re-derives the commit diff of that row. -/
theorem path_change_rederives_selected_row_diff_witness :
    onPathChangeEvent (DebouncedEvent.write ["x.txt"]) ["master"] [] [exInfo] (some 0)
      = some ([exInfo],
        if exInfo.is_sentinel then DiffAction.sentinelDiff else DiffAction.commitDiff exInfo.id) :=
  path_change_rederives_selected_row_diff (DebouncedEvent.write ["x.txt"]) ["master"]
    [] [exInfo] 0 exInfo (by decide) (by decide)

/-- C5 counterexample: in the history walk, a revision id that yields no
commit object from the store is not skipped: find_commit runs under expect,
so the whole history computation aborts (none models the panic), even
though the remaining revision loads fine. -/
theorem commit_load_failure_aborts_walk :
    findCommit [exCommit] 5 = none
    ∧ findCommit [exCommit] 1 = some exCommit
    ∧ walkInfos [exCommit] [] [Except.ok 5, Except.ok 1] = none
    ∧ updateCommitHistory [] [] [exCommit] [Except.ok 5, Except.ok 1] = none := by
  refine ⟨by decide, by decide, by decide, by decide⟩

/-- C5 amended: a revwalk item that is itself an error (the walk failed to
produce the next revision id) is skipped and the walk continues with the
remaining revisions, but a yielded revision id whose commit object fails to
load aborts the whole history computation. -/
theorem revwalk_error_skipped_but_load_failure_aborts
    (store : List CommitObj) (branches : List (String × Oid)) (msg : String)
    (rid : Oid) (rest : List (Except String Oid))
    (hmiss : findCommit store rid = none) :
    walkInfos store branches (Except.error msg :: rest) = walkInfos store branches rest
    ∧ walkInfos store branches (Except.ok rid :: rest) = none := by
  constructor
  · rfl
  · simp [walkInfos, hmiss]

/-- Closed instance of the amended C5: over an empty store, an error item is
skipped while an ok item aborts the walk. -/
theorem revwalk_error_skipped_but_load_failure_aborts_witness :
    walkInfos [] [] [Except.error "broken ref"] = walkInfos [] [] []
    ∧ walkInfos [] [] [Except.ok 3] = none :=
  revwalk_error_skipped_but_load_failure_aborts [] [] "broken ref" 3 [] (by decide)

/-- The first commit collected by the Parents iterator is the one the first
parent id resolves to (and there is none exactly when there is no parent). -/
theorem collectParents_head (store : List CommitObj) (ids : List Oid)
    (parents : List CommitObj) (h : collectParents store ids = some parents) :
    parents.head? = ids.head?.bind (findCommit store) := by
  cases ids with
  | nil =>
    simp only [collectParents] at h
    injection h with h
    subst h
    rfl
  | cons pid rest =>
    simp only [collectParents] at h
    cases hfind : findCommit store pid with
    | none =>
      rw [hfind] at h
      exact absurd h (by simp)
    | some p =>
      rw [hfind] at h
      cases hrest : collectParents store rest with
      | none =>
        rw [hrest] at h
        exact absurd h (by simp)
      | some l2 =>
        rw [hrest] at h
        simp only [Option.map_some', Option.some.injEq] at h
        subst h
        simp [hfind]

/-- C6: when the selected commit and its parents resolve, the computed diff
is the tree-to-tree diff between the tree of the first parent (the empty
tree when the commit has no parent) and the tree of the commit, and the
records are pushed as the staged list with an empty unstaged (secondary)
list; the second conjunct identifies the diff base with the commit the
first parent id resolves to. -/
theorem commit_selected_diff_first_parent
    (store : List CommitObj) (infoId : Oid) (commit : CommitObj) (parents : List CommitObj)
    (hfind : findCommit store infoId = some commit)
    (hpar : collectParents store commit.parentIds = some parents) :
    (onCommitSelected store infoId
      = some ((findSimilar (diffTreeToTree
          (((parents.head?.map CommitObj.tree)).getD []) commit.tree)).map mkTreeItem, []))
    ∧ parents.head? = commit.parentIds.head?.bind (findCommit store) := by
  constructor
  · simp [onCommitSelected, hfind, hpar]
  · exact collectParents_head store commit.parentIds parents hpar

set_option maxRecDepth 16000 in
/-- Closed instance of C6: selecting the child commit diffs it against the
tree of its resolved parent and returns an empty unstaged list. -/
theorem commit_selected_diff_first_parent_witness :
    (onCommitSelected exStore 2
      = some ((findSimilar (diffTreeToTree
          (((([exCommit] : List CommitObj).head?.map CommitObj.tree)).getD [])
          exCommit2.tree)).map mkTreeItem, []))
    ∧ ([exCommit] : List CommitObj).head? = exCommit2.parentIds.head?.bind (findCommit exStore) :=
  commit_selected_diff_first_parent exStore 2 exCommit2 [exCommit] (by decide) (by decide)

/-- C7: every change record produced for a selected historical commit has
its selection flag set to true. -/
theorem commit_diff_records_all_selected
    (store : List CommitObj) (infoId : Oid)
    (out : List TreeItemWithSelection × List TreeItemWithSelection)
    (hout : onCommitSelectedCurrent store infoId = some out) :
    ∀ r ∈ out.1, r.is_selected = true := by
  intro r hr
  rw [onCommitSelectedCurrent] at hout
  cases hfind : findCommit store infoId with
  | none =>
    rw [hfind] at hout
    exact absurd hout (by simp)
  | some commit =>
    rw [hfind] at hout
    injection hout with hout
    subst hout
    simp only [List.mem_map] at hr
    obtain ⟨d, _, rfl⟩ := hr
    rfl

set_option maxRecDepth 16000 in
/-- Closed instance of C7: the single record of the commit diff of the child
commit carries the selection flag. -/
theorem commit_diff_records_all_selected_witness :
    TreeItemWithSelection.is_selected ⟨7, "b", Delta.added, true⟩ = true :=
  commit_diff_records_all_selected exStore 2
    ([⟨7, "b", Delta.added, true⟩], []) (by decide)
    ⟨7, "b", Delta.added, true⟩ (by decide)

/-- C8 counterexample: a stage toggle whose row index is out of bounds for
the current snapshot is not defensively rejected: the bare Vec index
panics, aborting the operation (none models the panic), so no new state is
produced at all. -/
theorem toggle_out_of_bounds_panics :
    onToggleUnstaged exState ([], []) 0 = none := by
  decide

/-- C8 amended: a stage/unstage toggle with a row index that is out of
bounds for the current snapshot panics at the vector access before mutating
any path in the index: the operation aborts (none) rather than completing
with a mutation, but it is a panic, not a defensive rejection. -/
theorem toggle_out_of_bounds_aborts
    (st : RepoState) (snapshot : List TreeItem × List TreeItem) (index : Nat)
    (h : snapshot.2.length ≤ index) :
    onToggleUnstaged st snapshot index = none := by
  rw [onToggleUnstaged, List.getElem?_eq_none h]

/-- Closed instance of the amended C8: row 3 of an empty snapshot aborts the
toggle. -/
theorem toggle_out_of_bounds_aborts_witness :
    onToggleUnstaged exState ([], []) 3 = none :=
  toggle_out_of_bounds_aborts exState ([], []) 3 (by decide)

/-- C9 counterexample: staging the modified file a (content 2) and then
toggling it in the staged list does not restore the pre-stage sentinel
diff, because on_toggle_staged has an empty body: the file stays staged and
the staged/unstaged lists differ from their pre-stage values. -/
theorem stage_unstage_roundtrip_not_restored :
    onToggleUnstaged exState (deltasOf exState) 0 = some exStateStaged
    ∧ deltasOf (onToggleStaged exStateStaged 0) ≠ deltasOf exState := by
  refine ⟨by decide, by decide⟩

/-- C9 amended: staging a path and then immediately toggling the staged row
leaves the sentinel diff in its post-stage state, because the unstage
operation (on_toggle_staged) is a no-op; the pre-stage diff is not
restored. -/
theorem stage_unstage_roundtrip_keeps_post_stage_diff
    (st stStaged : RepoState) (stageIdx unstageIdx : Nat)
    (hstage : onToggleUnstaged st (deltasOf st) stageIdx = some stStaged) :
    deltasOf (onToggleStaged stStaged unstageIdx) = deltasOf stStaged :=
  rfl

/-- Closed instance of the amended C9: after staging file a the sentinel
diff is unchanged by the unstage toggle. -/
theorem stage_unstage_roundtrip_keeps_post_stage_diff_witness :
    deltasOf (onToggleStaged exStateStaged 0) = deltasOf exStateStaged :=
  stage_unstage_roundtrip_keeps_post_stage_diff exState exStateStaged 0 0 (by decide)

/-- has_uncommitted_changes holds exactly when some status entry is not
ignored. -/
theorem hasUncommittedChanges_iff (statuses : List StatusEntry) :
    hasUncommittedChanges statuses = true ↔ ∃ s ∈ statuses, s.isIgnored = false := by
  rw [hasUncommittedChanges, decide_eq_true_eq, List.length_pos_iff_exists_mem]
  constructor
  · rintro ⟨s, hs⟩
    rw [List.mem_filter, Bool.not_eq_true'] at hs
    exact ⟨s, hs.1, hs.2⟩
  · rintro ⟨s, hs, hig⟩
    refine ⟨s, List.mem_filter.mpr ⟨hs, ?_⟩⟩
    rw [hig]
    rfl

/-- Every CommitInfo produced by the history walk over a store whose commit
ids are nonzero fails the sentinel test. -/
theorem walkInfos_no_sentinel (store : List CommitObj) (branches : List (String × Oid))
    (hnz : ∀ c ∈ store, c.id ≠ 0) :
    ∀ (revs : List (Except String Oid)) (l : List CommitInfo),
      walkInfos store branches revs = some l → ∀ i ∈ l, i.is_sentinel = false := by
  intro revs
  induction revs with
  | nil =>
    intro l h i hi
    simp only [walkInfos] at h
    injection h with h
    subst h
    exact absurd hi (List.not_mem_nil i)
  | cons r rest ih =>
    intro l h i hi
    cases r with
    | error e =>
      simp only [walkInfos] at h
      exact ih l h i hi
    | ok rid =>
      simp only [walkInfos] at h
      cases hfind : findCommit store rid with
      | none =>
        rw [hfind] at h
        exact absurd h (by simp)
      | some c =>
        rw [hfind] at h
        cases hw : walkInfos store branches rest with
        | none =>
          rw [hw] at h
          exact absurd h (by simp)
        | some l2 =>
          rw [hw] at h
          simp only [Option.map_some', Option.some.injEq] at h
          subst h
          rcases List.mem_cons.mp hi with hic | hil
          · subst hic
            have hcz : c.id ≠ 0 := hnz c (List.mem_of_find?_eq_some hfind)
            simp [CommitInfo.is_sentinel, mkCommitInfo, hcz]
          · exact ih l2 hw i hil

/-- C2: for every history recomputation that completes, the output begins
with the sentinel record exactly when the repository status list contains
at least one entry whose status is not ignored; when no such entry exists
the sentinel is absent from the whole output.  The hypothesis that stored
commit ids are nonzero reflects that the zero oid is reserved and never
names a real commit. -/
theorem sentinel_record_iff_nonignored_status
    (statuses : List StatusEntry) (branches : List (String × Oid))
    (store : List CommitObj) (revs : List (Except String Oid)) (out : List CommitInfo)
    (hnz : ∀ c ∈ store, c.id ≠ 0)
    (hout : updateCommitHistory statuses branches store revs = some out) :
    ((∃ i, out.head? = some i ∧ i.is_sentinel = true) ↔ ∃ s ∈ statuses, s.isIgnored = false)
    ∧ ((¬ ∃ s ∈ statuses, s.isIgnored = false) → ∀ i ∈ out, i.is_sentinel = false) := by
  rw [updateCommitHistory] at hout
  cases hw : walkInfos store branches revs with
  | none =>
    rw [hw] at hout
    exact absurd hout (by simp)
  | some l =>
    rw [hw] at hout
    have hl := walkInfos_no_sentinel store branches hnz revs l hw
    by_cases hc : hasUncommittedChanges statuses = true
    · simp only [hc, if_true, Option.map_some', List.singleton_append,
        Option.some.injEq] at hout
      subst hout
      constructor
      · constructor
        · intro _
          exact (hasUncommittedChanges_iff statuses).mp hc
        · intro _
          exact ⟨CommitInfo.uncommitted_sentinel, rfl, by decide⟩
      · intro hno
        exact absurd ((hasUncommittedChanges_iff statuses).mp hc) hno
    · have hc2 : hasUncommittedChanges statuses = false := Bool.eq_false_iff.mpr hc
      simp only [hc2, Bool.false_eq_true, if_false, Option.map_some', List.nil_append,
        Option.some.injEq] at hout
      subst hout
      constructor
      · constructor
        · rintro ⟨i, hh, hs⟩
          cases l with
          | nil => simp at hh
          | cons a t =>
            simp only [List.head?_cons, Option.some.injEq] at hh
            subst hh
            rw [hl a (List.mem_cons_self a t)] at hs
            exact absurd hs (by simp)
        · intro hex
          exact absurd ((hasUncommittedChanges_iff statuses).mpr hex) hc
      · intro _
        exact hl

set_option maxRecDepth 16000 in
/-- Closed instance of C2: with one non-ignored status entry the history
starts with the sentinel; without any such entry the sentinel is absent. -/
theorem sentinel_record_iff_nonignored_status_witness :
    ((∃ i, ([CommitInfo.uncommitted_sentinel, mkCommitInfo [] exCommit] : List CommitInfo).head?
        = some i ∧ i.is_sentinel = true) ↔
      ∃ s ∈ [({ path := "x.txt", isIgnored := false } : StatusEntry)], s.isIgnored = false)
    ∧ ((¬ ∃ s ∈ [({ path := "x.txt", isIgnored := false } : StatusEntry)], s.isIgnored = false) →
      ∀ i ∈ ([CommitInfo.uncommitted_sentinel, mkCommitInfo [] exCommit] : List CommitInfo),
        i.is_sentinel = false) :=
  sentinel_record_iff_nonignored_status [{ path := "x.txt", isIgnored := false }] []
    [exCommit] [Except.ok 1] [CommitInfo.uncommitted_sentinel, mkCommitInfo [] exCommit]
    (by decide) (by decide)

end Sourcepan
